import Mathlib

/-!
Verification of the exam-window admission, submission-gating, enrollment and
grading logic of the uni-paper-manager application, via a shallow embedding of
the relevant Django models, views, forms and middleware.

Times are modelled as integers (seconds); decimal marks as rationals.
-/

namespace UniPaperManager

/-- Embeds `exams.models.Exam` (the fields the gating logic reads). -/
structure Exam where
  examId : Nat
  courseId : Nat
  startTime : Int
  endTime : Int
deriving DecidableEq, Repr

/-- Embeds `enrollments.models.Enrollment`. -/
structure Enrollment where
  enrollmentId : Nat
  studentId : Nat
  courseId : Nat
deriving DecidableEq, Repr

/-- Embeds `exams.models.ExamSubmission`. -/
structure ExamSubmission where
  submissionId : Nat
  studentId : Nat
  examId : Nat
  submissionTime : Int
  fileName : String
  fileSize : Nat
deriving DecidableEq, Repr

/-- The persistent store the views operate on, with auto-increment counters
for the `AutoField` primary keys. -/
structure Store where
  exams : List Exam
  enrollments : List Enrollment
  submissions : List ExamSubmission
  nextEnrollmentId : Nat
  nextSubmissionId : Nat
deriving DecidableEq, Repr

/-- Embeds `Exam.is_active` (`exams/models.py`):
`self.start_time <= now <= self.end_time`. -/
def is_active (e : Exam) (now : Int) : Bool :=
  decide (e.startTime ≤ now) && decide (now ≤ e.endTime)

/-- Embeds the `upcoming` queryset filter in `exam_list_admin`
(`exams/views.py`): `start_time__gt=now`. -/
def examUpcoming (e : Exam) (now : Int) : Bool :=
  decide (now < e.startTime)

/-- Embeds the `active` queryset filter in `exam_list_admin`
(`exams/views.py`): `start_time__lte=now, end_time__gte=now`. -/
def examActive (e : Exam) (now : Int) : Bool :=
  decide (e.startTime ≤ now) && decide (e.endTime ≥ now)

/-- Embeds the `completed` queryset filter in `exam_list_admin`
(`exams/views.py`): `end_time__lt=now`. -/
def examCompleted (e : Exam) (now : Int) : Bool :=
  decide (e.endTime < now)

/-- Rejection kinds raised by `ExamForm.clean` (`exams/forms.py`). -/
inductive ExamValidationError
  | InvalidWindow
  | PastStart
  | TooShort
  | TooLong
deriving DecidableEq, Repr

/-- Embeds `ExamForm.clean` (`exams/forms.py`): the sequential validation of
an exam definition. `isNew` is `not self.instance.pk`; durations are in
seconds (`duration.total_seconds()`). -/
def validate_exam (startTime endTime : Int) (isNew : Bool) (now : Int) :
    Except ExamValidationError Unit :=
  if endTime ≤ startTime then .error .InvalidWindow
  else if isNew && decide (startTime < now) then .error .PastStart
  else if endTime - startTime < 900 then .error .TooShort
  else if endTime - startTime > 86400 then .error .TooLong
  else .ok ()

/-- Index of the last '.' in a character list (Python `str.rfind`),
`none` when there is no dot. -/
def lastDotIdx (cs : List Char) : Option Nat :=
  (List.range cs.length).foldl
    (fun acc i => if cs.getD i ' ' = '.' then some i else acc) none

/-- Embeds `os.path.splitext(name)[1]` for a bare file name: the suffix from
the last dot, except that a name consisting of leading dots up to that dot has
no extension. -/
def splitextExt (name : String) : String :=
  let cs := name.toList
  match lastDotIdx cs with
  | none => ""
  | some d =>
      if (cs.take d).any (fun c => c ≠ '.') then String.mk (cs.drop d) else ""

/-- The extension whitelist in `ExamSubmissionForm.clean_file_path`
(`exams/forms.py`). -/
def allowedExtensions : List String :=
  [".pdf", ".doc", ".docx", ".txt", ".zip"]

/-- Python `str.lower()`, character by character. -/
def strLower (s : String) : String :=
  String.mk (s.toList.map Char.toLower)

/-- Embeds `ExamSubmissionForm.clean_file_path` (`exams/forms.py`): the file
is rejected when its size exceeds 10 MiB or its lowercased extension is not
whitelisted. -/
def validFile (fileName : String) (fileSize : Nat) : Bool :=
  !(decide (fileSize > 10 * 1024 * 1024)) &&
    allowedExtensions.contains (strLower (splitextExt fileName))

/-- Embeds the `Enrollment.objects.filter(student=..., course=...).exists()`
check used by `submit_exam` and `enroll_course`. -/
def isEnrolled (st : Store) (studentId courseId : Nat) : Bool :=
  st.enrollments.any fun en =>
    en.studentId == studentId && en.courseId == courseId

/-- Embeds the `ExamSubmission.objects.filter(student=..., exam=...).exists()`
check used by `submit_exam`. -/
def hasSubmitted (st : Store) (studentId examId : Nat) : Bool :=
  st.submissions.any fun s => s.studentId == studentId && s.examId == examId

/-- Rejection kinds surfaced by `submit_exam` (`exams/views.py`). -/
inductive SubmitError
  | NotEnrolled
  | ExamNotActive
  | AlreadySubmitted
  | InvalidFile
deriving DecidableEq, Repr

/-- Embeds `submit_exam` (`exams/views.py`), the submission admission control:
enrollment check, then `exam.is_active()`, then the prior-submission check,
then form validation of the uploaded file; only then is an `ExamSubmission`
saved, its `submission_time` assigned by `auto_now_add` (the current time).
Every rejection returns the store unchanged. -/
def attempt_submit (st : Store) (studentId : Nat) (e : Exam)
    (fileName : String) (fileSize : Nat) (now : Int) :
    Store × Except SubmitError ExamSubmission :=
  if !isEnrolled st studentId e.courseId then (st, .error .NotEnrolled)
  else if !is_active e now then (st, .error .ExamNotActive)
  else if hasSubmitted st studentId e.examId then (st, .error .AlreadySubmitted)
  else if !validFile fileName fileSize then (st, .error .InvalidFile)
  else
    let sub : ExamSubmission :=
      ⟨st.nextSubmissionId, studentId, e.examId, now, fileName, fileSize⟩
    ({ st with
        submissions := st.submissions ++ [sub],
        nextSubmissionId := st.nextSubmissionId + 1 },
      .ok sub)

/-- Embeds `ExamTimingMiddleware._check_exam_timing` (`exams/middleware.py`)
for an authenticated student and a provided exam id: invalid when the exam is
not found, when `current_time > exam.end_time`, or when a prior submission by
this student exists; valid otherwise. Note the window check compares only
against `end_time`. -/
def checkExamTiming (st : Store) (studentId examId : Nat) (now : Int) : Bool :=
  match st.exams.find? (fun e => e.examId == examId) with
  | none => false
  | some e =>
      if decide (now > e.endTime) then false
      else if hasSubmitted st studentId e.examId then false
      else true

/-- Rejection kind surfaced by `enroll_course` (`enrollments/views.py`). -/
inductive EnrollError
  | AlreadyEnrolled
deriving DecidableEq, Repr

/-- Embeds the confirmed-POST path of `enroll_course`
(`enrollments/views.py`): rejected when an Enrollment for (student, course)
already exists, otherwise a new Enrollment is created. -/
def enroll_course (st : Store) (studentId courseId : Nat) :
    Store × Except EnrollError Enrollment :=
  if isEnrolled st studentId courseId then (st, .error .AlreadyEnrolled)
  else
    let en : Enrollment := ⟨st.nextEnrollmentId, studentId, courseId⟩
    ({ st with
        enrollments := st.enrollments ++ [en],
        nextEnrollmentId := st.nextEnrollmentId + 1 },
      .ok en)

/-- The `exam__course` join: the course of the exam a submission references. -/
def courseOfExam (st : Store) (examId : Nat) : Option Nat :=
  (st.exams.find? (fun e => e.examId == examId)).map (·.courseId)

/-- Embeds the
`ExamSubmission.objects.filter(student=..., exam__course=...).exists()`
check in `unenroll_course` (`enrollments/views.py`). -/
def hasCourseSubmissions (st : Store) (studentId courseId : Nat) : Bool :=
  st.submissions.any fun s =>
    s.studentId == studentId && courseOfExam st s.examId == some courseId

/-- Rejection kind surfaced by `unenroll_course` (`enrollments/views.py`). -/
inductive UnenrollError
  | HasSubmissions
deriving DecidableEq, Repr

/-- Embeds the confirmed-POST path of `unenroll_course`
(`enrollments/views.py`): rejected when any submission by the enrollment's
student exists for any exam of the enrollment's course; otherwise the
Enrollment row is deleted. -/
def unenroll_course (st : Store) (en : Enrollment) :
    Store × Except UnenrollError Unit :=
  if hasCourseSubmissions st en.studentId en.courseId then
    (st, .error .HasSubmissions)
  else
    ({ st with
        enrollments :=
          st.enrollments.filter fun e => e.enrollmentId != en.enrollmentId },
      .ok ())

/-- The exception Django raises when deleting a row protected by an
`on_delete=PROTECT` reference. -/
inductive DeleteError
  | ProtectedError
deriving DecidableEq, Repr

/-- Embeds the POST path of `delete_exam` (`exams/views.py`) together with the
`on_delete=PROTECT` declaration on `ExamSubmission.exam` (`exams/models.py`):
`exam.delete()` raises `ProtectedError` when any submission references the
exam, leaving the store unchanged; otherwise the exam row is deleted. -/
def delete_exam (st : Store) (examId : Nat) :
    Store × Except DeleteError Unit :=
  if st.submissions.any (fun s => s.examId == examId) then
    (st, .error .ProtectedError)
  else
    ({ st with exams := st.exams.filter fun e => e.examId != examId }, .ok ())

/-- Embeds `Enrollment.objects.create(student=..., course=...)` as executed by
the store layer alone: `enrollments/models.py` declares
`unique_together = ('student', 'course')`, so the underlying insert fails
(IntegrityError) when a row with the same (student, course) pair exists. -/
def enrollmentRawCreate (st : Store) (studentId courseId : Nat) :
    Option Store :=
  if isEnrolled st studentId courseId then none
  else
    some { st with
      enrollments :=
        st.enrollments ++ [⟨st.nextEnrollmentId, studentId, courseId⟩],
      nextEnrollmentId := st.nextEnrollmentId + 1 }

/-- Embeds the raw `ExamSubmission` insert as executed by the store layer
alone: `exams/models.py` declares no unique constraint on (student, exam), so
the insert always succeeds, duplicates included. -/
def submissionRawCreate (st : Store) (studentId examId : Nat) (now : Int)
    (fileName : String) (fileSize : Nat) : Store :=
  { st with
    submissions :=
      st.submissions ++
        [⟨st.nextSubmissionId, studentId, examId, now, fileName, fileSize⟩],
    nextSubmissionId := st.nextSubmissionId + 1 }

/-- Rejection kind surfaced by `ResultForm.clean_marks` (`exams/forms.py`). -/
inductive GradeError
  | InvalidMarks
deriving DecidableEq, Repr

/-- Embeds the grade-derivation chain in `ResultForm.clean`
(`exams/forms.py`). -/
def deriveGrade (marks : ℚ) : String :=
  if marks ≥ 90 then "A+"
  else if marks ≥ 85 then "A"
  else if marks ≥ 80 then "A-"
  else if marks ≥ 75 then "B+"
  else if marks ≥ 70 then "B"
  else if marks ≥ 65 then "B-"
  else if marks ≥ 60 then "C+"
  else if marks ≥ 55 then "C"
  else if marks ≥ 50 then "C-"
  else if marks ≥ 40 then "D"
  else "F"

/-- Embeds `ResultForm.clean_marks` (`exams/forms.py`): marks below 0 or
above 100 are rejected. -/
def clean_marks (marks : ℚ) : Except GradeError ℚ :=
  if marks < 0 then .error .InvalidMarks
  else if marks > 100 then .error .InvalidMarks
  else .ok marks

/-- Embeds `ResultForm` validation (`exams/forms.py`): `clean_marks` followed
by `clean`, which derives the grade from marks only when no explicit grade was
supplied (`grade = none` models the empty choice). Returns the cleaned
(marks, grade) pair that is stored. -/
def resultClean (marks : ℚ) (grade : Option String) :
    Except GradeError (ℚ × String) :=
  match clean_marks marks with
  | .error err => .error err
  | .ok m =>
      match grade with
      | some g => .ok (m, g)
      | none => .ok (m, deriveGrade m)

/-- C1: for every exam with start_time ≤ end_time and every time `now`, the
exam-window classification used by `Exam.is_active` and the queryset filters
of `exam_list_admin` yields exactly one of Upcoming, Active, Completed, with
Active ⇔ start_time ≤ now ≤ end_time, Upcoming ⇔ now < start_time and
Completed ⇔ now > end_time; the three cases are mutually exclusive and
exhaustive. -/
theorem exam_window_classification (e : Exam) (now : Int)
    (h : e.startTime ≤ e.endTime) :
    (examActive e now = true ↔ (e.startTime ≤ now ∧ now ≤ e.endTime)) ∧
    (examUpcoming e now = true ↔ now < e.startTime) ∧
    (examCompleted e now = true ↔ e.endTime < now) ∧
    (is_active e now = examActive e now) ∧
    (examUpcoming e now = true ∨ examActive e now = true ∨
      examCompleted e now = true) ∧
    ¬(examUpcoming e now = true ∧ examActive e now = true) ∧
    ¬(examUpcoming e now = true ∧ examCompleted e now = true) ∧
    ¬(examActive e now = true ∧ examCompleted e now = true) := by
  refine ⟨?_, ?_, ?_, rfl, ?_, ?_, ?_, ?_⟩ <;>
    simp only [examActive, examUpcoming, examCompleted,
      Bool.and_eq_true, decide_eq_true_eq] <;> omega

/-- Witness for C1 at a concrete exam and instant. -/
theorem exam_window_classification_witness :
    examActive ⟨1, 1, 0, 100⟩ 50 = true := by
  have h := exam_window_classification ⟨1, 1, 0, 100⟩ 50 (by decide)
  exact h.1.mpr (by decide)

/-- C7: `validate_exam` runs the four checks of `ExamForm.clean` in order:
InvalidWindow when end ≤ start, then PastStart for a new exam starting in the
past, then TooShort for a duration under 15 minutes, then TooLong for a
duration over 24 hours; an exam passing all four is accepted. A 10-minute
window is TooShort, a 25-hour window is TooLong, and a new exam starting one
second in the past is PastStart. -/
theorem validate_exam_spec (s t now : Int) (isNew : Bool) :
    (validate_exam s t isNew now = .error .InvalidWindow ↔ t ≤ s) ∧
    (validate_exam s t isNew now = .error .PastStart ↔
      (s < t ∧ isNew = true ∧ s < now)) ∧
    (validate_exam s t isNew now = .error .TooShort ↔
      (s < t ∧ ¬(isNew = true ∧ s < now) ∧ t - s < 900)) ∧
    (validate_exam s t isNew now = .error .TooLong ↔
      (s < t ∧ ¬(isNew = true ∧ s < now) ∧ 900 ≤ t - s ∧ 86400 < t - s)) ∧
    (validate_exam s t isNew now = .ok () ↔
      (s < t ∧ ¬(isNew = true ∧ s < now) ∧ 900 ≤ t - s ∧ t - s ≤ 86400)) ∧
    validate_exam 0 600 false 0 = .error .TooShort ∧
    validate_exam 0 90000 false 0 = .error .TooLong ∧
    validate_exam (-1) 3600 true 0 = .error .PastStart := by
  refine ⟨?_, ?_, ?_, ?_, ?_, rfl, rfl, rfl⟩ <;>
    · unfold validate_exam
      cases isNew <;> split_ifs <;> simp_all <;> omega

set_option maxHeartbeats 2000000 in
/-- C6: `ResultForm` validation fails with InvalidMarks exactly when marks
lies outside [0,100]; for in-range marks with no explicit grade the stored
letter grade follows the inclusive-lower-bound thresholds of
`ResultForm.clean`, so 90 yields "A+", 89.99 yields "A" and 39.99 yields "F";
an explicitly supplied grade is stored unchanged. -/
theorem result_grading_spec (m : ℚ) (g : Option String) :
    (resultClean m g = .error .InvalidMarks ↔ (m < 0 ∨ 100 < m)) ∧
    (0 ≤ m → m ≤ 100 → resultClean m none = .ok (m, deriveGrade m)) ∧
    (∀ s, 0 ≤ m → m ≤ 100 → resultClean m (some s) = .ok (m, s)) ∧
    (90 ≤ m → deriveGrade m = "A+") ∧
    (85 ≤ m → m < 90 → deriveGrade m = "A") ∧
    (80 ≤ m → m < 85 → deriveGrade m = "A-") ∧
    (75 ≤ m → m < 80 → deriveGrade m = "B+") ∧
    (70 ≤ m → m < 75 → deriveGrade m = "B") ∧
    (65 ≤ m → m < 70 → deriveGrade m = "B-") ∧
    (60 ≤ m → m < 65 → deriveGrade m = "C+") ∧
    (55 ≤ m → m < 60 → deriveGrade m = "C") ∧
    (50 ≤ m → m < 55 → deriveGrade m = "C-") ∧
    (40 ≤ m → m < 50 → deriveGrade m = "D") ∧
    (m < 40 → deriveGrade m = "F") ∧
    resultClean 90 none = .ok (90, "A+") ∧
    resultClean (8999/100) none = .ok (8999/100, "A") ∧
    resultClean (3999/100) none = .ok (3999/100, "F") := by
  have hinv : resultClean m g = .error .InvalidMarks ↔ (m < 0 ∨ 100 < m) := by
    unfold resultClean clean_marks
    split_ifs with h1 h2
    · simp only [true_iff]; exact Or.inl h1
    · simp only [true_iff]; exact Or.inr h2
    · cases g <;> simp <;> exact ⟨by linarith, by linarith⟩
  have hnone : 0 ≤ m → m ≤ 100 → resultClean m none = .ok (m, deriveGrade m) := by
    intro h1 h2
    unfold resultClean clean_marks
    split_ifs with ha hb
    · linarith
    · linarith
    · rfl
  have hsome : ∀ s, 0 ≤ m → m ≤ 100 → resultClean m (some s) = .ok (m, s) := by
    intro s h1 h2
    unfold resultClean clean_marks
    split_ifs with ha hb
    · linarith
    · linarith
    · rfl
  have c90 : resultClean 90 none = .ok (90, "A+") := by
    norm_num [resultClean, clean_marks, deriveGrade]
  have c8999 : resultClean (8999/100) none = .ok (8999/100, "A") := by
    norm_num [resultClean, clean_marks, deriveGrade]
  have c3999 : resultClean (3999/100) none = .ok (3999/100, "F") := by
    norm_num [resultClean, clean_marks, deriveGrade]
  refine ⟨hinv, hnone, hsome, ?_, ?_, ?_, ?_, ?_, ?_, ?_, ?_, ?_, ?_, ?_,
    c90, c8999, c3999⟩ <;>
    · intros
      unfold deriveGrade
      split_ifs <;> first | rfl | (exfalso; linarith)

/-- Witness for C6 at concrete marks. -/
theorem result_grading_spec_witness : deriveGrade 87 = "A" := by
  have h := result_grading_spec 87 none
  exact h.2.2.2.2.1 (by norm_num) (by norm_num)

/-- Witness for C7 at a concrete exam definition. -/
theorem validate_exam_spec_witness : validate_exam 5 3605 false 0 = .ok () := by
  have h := validate_exam_spec 5 3605 0 false
  exact h.2.2.2.2.1.mpr (by decide)

/-- A concrete store: exam 1 on course 1 with window [10, 20], student 1
enrolled in course 1, no submissions yet. -/
def sampleStore : Store := ⟨[⟨1, 1, 10, 20⟩], [⟨1, 1, 1⟩], [], 2, 1⟩

/-- A concrete store like `sampleStore` but where student 1 has already
submitted exam 1. -/
def subStore : Store :=
  ⟨[⟨1, 1, 10, 20⟩], [⟨1, 1, 1⟩], [⟨1, 1, 1, 15, "a.pdf", 100⟩], 2, 2⟩

/-- C3: `attempt_submit` runs its checks in the fixed order NotEnrolled,
ExamNotActive, AlreadySubmitted, InvalidFile; every failed check returns the
corresponding rejection with the store unchanged, and only when all four pass
is exactly one new Submission appended, with submission_time equal to the
current time. -/
theorem attempt_submit_spec (st : Store) (sid : Nat) (e : Exam)
    (fn : String) (fs : Nat) (now : Int) :
    ((attempt_submit st sid e fn fs now).2 = .error .NotEnrolled ↔
      isEnrolled st sid e.courseId = false) ∧
    ((attempt_submit st sid e fn fs now).2 = .error .ExamNotActive ↔
      (isEnrolled st sid e.courseId = true ∧ is_active e now = false)) ∧
    ((attempt_submit st sid e fn fs now).2 = .error .AlreadySubmitted ↔
      (isEnrolled st sid e.courseId = true ∧ is_active e now = true ∧
        hasSubmitted st sid e.examId = true)) ∧
    ((attempt_submit st sid e fn fs now).2 = .error .InvalidFile ↔
      (isEnrolled st sid e.courseId = true ∧ is_active e now = true ∧
        hasSubmitted st sid e.examId = false ∧ validFile fn fs = false)) ∧
    ((∃ sub, (attempt_submit st sid e fn fs now).2 = .ok sub) ↔
      (isEnrolled st sid e.courseId = true ∧ is_active e now = true ∧
        hasSubmitted st sid e.examId = false ∧ validFile fn fs = true)) ∧
    (∀ err, (attempt_submit st sid e fn fs now).2 = .error err →
      (attempt_submit st sid e fn fs now).1 = st) ∧
    (∀ sub, (attempt_submit st sid e fn fs now).2 = .ok sub →
      ((attempt_submit st sid e fn fs now).1.submissions =
          st.submissions ++ [sub] ∧
        (attempt_submit st sid e fn fs now).1.enrollments = st.enrollments ∧
        (attempt_submit st sid e fn fs now).1.exams = st.exams ∧
        sub.submissionTime = now)) := by
  unfold attempt_submit
  split_ifs with h1 h2 h3 h4 <;> simp_all

/-- Witness for C3 at a concrete successful submission. -/
theorem attempt_submit_spec_witness :
    ∃ sub, (attempt_submit sampleStore 1 ⟨1, 1, 10, 20⟩ "a.pdf" 100 15).2 =
      .ok sub := by
  have h := attempt_submit_spec sampleStore 1 ⟨1, 1, 10, 20⟩ "a.pdf" 100 15
  exact h.2.2.2.2.1.mpr ⟨rfl, rfl, rfl, rfl⟩

/-- C4: `attempt_submit` is idempotent-rejecting: for an enrolled student, an
active exam, no prior submission and a valid file, the first call succeeds
and stores a submission timestamped now; a second call for the same
(student, exam) fails with AlreadySubmitted and leaves the store unchanged. -/
theorem attempt_submit_idempotent_rejecting (st : Store) (sid : Nat)
    (e : Exam) (fn fn2 : String) (fs fs2 : Nat) (now now2 : Int)
    (henr : isEnrolled st sid e.courseId = true)
    (hact : is_active e now = true)
    (hsub : hasSubmitted st sid e.examId = false)
    (hfile : validFile fn fs = true)
    (hact2 : is_active e now2 = true) :
    ∃ sub, (attempt_submit st sid e fn fs now).2 = .ok sub ∧
      sub.submissionTime = now ∧
      (attempt_submit (attempt_submit st sid e fn fs now).1 sid e fn2 fs2
          now2).2 = .error .AlreadySubmitted ∧
      (attempt_submit (attempt_submit st sid e fn fs now).1 sid e fn2 fs2
          now2).1 = (attempt_submit st sid e fn fs now).1 := by
  have hstep :
      attempt_submit st sid e fn fs now =
        ({ st with
            submissions := st.submissions ++
              [⟨st.nextSubmissionId, sid, e.examId, now, fn, fs⟩],
            nextSubmissionId := st.nextSubmissionId + 1 },
          .ok ⟨st.nextSubmissionId, sid, e.examId, now, fn, fs⟩) := by
    unfold attempt_submit
    simp [henr, hact, hsub, hfile]
  refine ⟨_, by rw [hstep], rfl, ?_, ?_⟩ <;>
  · rw [hstep]
    unfold attempt_submit
    simp [isEnrolled, hasSubmitted, hact2, List.any_append] at henr ⊢
    obtain ⟨x, hx, hx1, hx2⟩ := henr
    rw [if_neg (fun hall => hall x hx hx1 hx2)]

/-- Witness for C4 at a concrete double submission. -/
theorem attempt_submit_idempotent_rejecting_witness :
    ∃ sub,
      (attempt_submit sampleStore 1 ⟨1, 1, 10, 20⟩ "a.pdf" 100 15).2 =
        .ok sub ∧
      sub.submissionTime = 15 ∧
      (attempt_submit
        (attempt_submit sampleStore 1 ⟨1, 1, 10, 20⟩ "a.pdf" 100 15).1
        1 ⟨1, 1, 10, 20⟩ "b.pdf" 200 16).2 = .error .AlreadySubmitted ∧
      (attempt_submit
        (attempt_submit sampleStore 1 ⟨1, 1, 10, 20⟩ "a.pdf" 100 15).1
        1 ⟨1, 1, 10, 20⟩ "b.pdf" 200 16).1 =
        (attempt_submit sampleStore 1 ⟨1, 1, 10, 20⟩ "a.pdf" 100 15).1 :=
  attempt_submit_idempotent_rejecting sampleStore 1 ⟨1, 1, 10, 20⟩
    "a.pdf" "b.pdf" 100 200 15 16 rfl rfl rfl rfl rfl

/-- C8: `unenroll_course` fails with HasSubmissions exactly when at least one
submission by the enrollment's student exists for any exam of the
enrollment's course, and then the store is unchanged; otherwise the
Enrollment row is deleted and nothing else changes. -/
theorem unenroll_course_spec (st : Store) (en : Enrollment) :
    ((unenroll_course st en).2 = .error .HasSubmissions ↔
      ∃ s ∈ st.submissions, s.studentId = en.studentId ∧
        courseOfExam st s.examId = some en.courseId) ∧
    ((unenroll_course st en).2 = .ok () ↔
      ¬∃ s ∈ st.submissions, s.studentId = en.studentId ∧
        courseOfExam st s.examId = some en.courseId) ∧
    ((unenroll_course st en).2 = .error .HasSubmissions →
      (unenroll_course st en).1 = st) ∧
    ((unenroll_course st en).2 = .ok () →
      ((unenroll_course st en).1.enrollments =
          st.enrollments.filter (fun x => x.enrollmentId != en.enrollmentId) ∧
        (∀ x ∈ (unenroll_course st en).1.enrollments,
          x.enrollmentId ≠ en.enrollmentId) ∧
        (unenroll_course st en).1.submissions = st.submissions ∧
        (unenroll_course st en).1.exams = st.exams)) := by
  unfold unenroll_course
  split_ifs with h <;> simp_all [hasCourseSubmissions, List.mem_filter]

/-- Witness for C8 at a concrete submission-free unenrollment. -/
theorem unenroll_course_spec_witness :
    (unenroll_course sampleStore ⟨1, 1, 1⟩).2 = .ok () := by
  have h := unenroll_course_spec sampleStore ⟨1, 1, 1⟩
  exact h.2.1.mpr (by simp [sampleStore])

/-- C9: for a student and course with no Enrollment and no submissions,
enroll succeeds; a repeated enroll fails with AlreadyEnrolled leaving the
store unchanged; unenroll then deletes the Enrollment, restoring the original
enrollment rows, after which enroll succeeds again. -/
theorem enroll_unenroll_roundtrip (st : Store) (sid cid : Nat)
    (hnot : isEnrolled st sid cid = false)
    (hnosub : hasCourseSubmissions st sid cid = false)
    (hfresh : ∀ x ∈ st.enrollments, x.enrollmentId ≠ st.nextEnrollmentId) :
    ∃ en, (enroll_course st sid cid).2 = .ok en ∧
      isEnrolled (enroll_course st sid cid).1 sid cid = true ∧
      (enroll_course (enroll_course st sid cid).1 sid cid).2 =
        .error .AlreadyEnrolled ∧
      (enroll_course (enroll_course st sid cid).1 sid cid).1 =
        (enroll_course st sid cid).1 ∧
      (unenroll_course (enroll_course st sid cid).1 en).2 = .ok () ∧
      (unenroll_course (enroll_course st sid cid).1 en).1.enrollments =
        st.enrollments ∧
      isEnrolled (unenroll_course (enroll_course st sid cid).1 en).1 sid cid =
        false ∧
      (∃ en2, (enroll_course
        (unenroll_course (enroll_course st sid cid).1 en).1 sid cid).2 =
          .ok en2) := by
  have hstep : enroll_course st sid cid =
      ({ st with
          enrollments := st.enrollments ++ [⟨st.nextEnrollmentId, sid, cid⟩],
          nextEnrollmentId := st.nextEnrollmentId + 1 },
        .ok ⟨st.nextEnrollmentId, sid, cid⟩) := by
    unfold enroll_course
    simp [hnot]
  have hfilter : st.enrollments.filter
      (fun x => x.enrollmentId != st.nextEnrollmentId) = st.enrollments :=
    List.filter_eq_self.mpr (fun a ha => by simpa using hfresh a ha)
  have henr1 : isEnrolled (enroll_course st sid cid).1 sid cid = true := by
    rw [hstep]
    simp [isEnrolled, List.any_append]
  have hunen : unenroll_course
      ({ st with
          enrollments := st.enrollments ++ [⟨st.nextEnrollmentId, sid, cid⟩],
          nextEnrollmentId := st.nextEnrollmentId + 1 })
      ⟨st.nextEnrollmentId, sid, cid⟩ =
      ({ st with nextEnrollmentId := st.nextEnrollmentId + 1 }, .ok ()) := by
    unfold unenroll_course
    have h2 : hasCourseSubmissions
        ({ st with
            enrollments := st.enrollments ++ [⟨st.nextEnrollmentId, sid, cid⟩],
            nextEnrollmentId := st.nextEnrollmentId + 1 }) sid cid = false :=
      hnosub
    simp [h2, List.filter_append, hfilter]
  have henr1' : isEnrolled
      ({ st with
          enrollments := st.enrollments ++ [⟨st.nextEnrollmentId, sid, cid⟩],
          nextEnrollmentId := st.nextEnrollmentId + 1 }) sid cid = true := by
    rw [hstep] at henr1
    exact henr1
  refine ⟨⟨st.nextEnrollmentId, sid, cid⟩, by rw [hstep], henr1, ?_, ?_,
    ?_, ?_, ?_, ?_⟩
  · rw [hstep]
    unfold enroll_course
    simp [henr1']
  · rw [hstep]
    unfold enroll_course
    simp [henr1']
  · rw [hstep, hunen]
  · rw [hstep, hunen]
  · rw [hstep, hunen]
    unfold isEnrolled at hnot ⊢
    exact hnot
  · rw [hstep, hunen]
    have hnot2 : isEnrolled
        ({ st with nextEnrollmentId := st.nextEnrollmentId + 1 }) sid cid =
        false := hnot
    unfold enroll_course
    simp [hnot2]

/-- Witness for C9 at a concrete fresh (student, course) pair. -/
theorem enroll_unenroll_roundtrip_witness :
    ∃ en, (enroll_course sampleStore 2 5).2 = .ok en := by
  obtain ⟨en, h1, -⟩ := enroll_unenroll_roundtrip sampleStore 2 5 rfl rfl
    (by decide)
  exact ⟨en, h1⟩

/-- C10: an exam with at least one submission cannot be deleted —
`delete_exam` raises ProtectedError and leaves the store unchanged (and never
touches the submissions); consequently the invariant that every
ExamSubmission references an existing Exam is preserved both by
`delete_exam` and by `attempt_submit`. -/
theorem delete_exam_protect (st : Store) (eid : Nat) :
    ((∃ s ∈ st.submissions, s.examId = eid) →
      delete_exam st eid = (st, .error .ProtectedError)) ∧
    ((delete_exam st eid).1.submissions = st.submissions) ∧
    ((∀ s ∈ st.submissions, ∃ e ∈ st.exams, e.examId = s.examId) →
      ∀ s ∈ (delete_exam st eid).1.submissions,
        ∃ e ∈ (delete_exam st eid).1.exams, e.examId = s.examId) ∧
    (∀ (sid : Nat) (ex : Exam) (fn : String) (fs : Nat) (now : Int),
      ex ∈ st.exams →
      (∀ s ∈ st.submissions, ∃ e ∈ st.exams, e.examId = s.examId) →
      ∀ s ∈ (attempt_submit st sid ex fn fs now).1.submissions,
        ∃ e ∈ (attempt_submit st sid ex fn fs now).1.exams,
          e.examId = s.examId) := by
  refine ⟨?_, ?_, ?_, ?_⟩
  · rintro ⟨s, hs, hse⟩
    unfold delete_exam
    rw [if_pos (by simp only [List.any_eq_true, beq_iff_eq]; exact ⟨s, hs, hse⟩)]
  · unfold delete_exam
    split_ifs <;> rfl
  · intro hinv
    unfold delete_exam
    split_ifs with h
    · simpa using hinv
    · simp only [Bool.not_eq_true, List.any_eq_false, beq_iff_eq] at h
      intro s hs
      obtain ⟨e, he, hee⟩ := hinv s hs
      refine ⟨e, List.mem_filter.mpr ⟨he, ?_⟩, hee⟩
      simp only [bne_iff_ne, ne_eq]
      intro hcontra
      exact h s hs (hee ▸ hcontra)
  · intro sid ex fn fs now hex hinv s hs
    unfold attempt_submit at hs ⊢
    split_ifs at hs ⊢ with h1 h2 h3 h4
    · exact hinv s hs
    · exact hinv s hs
    · exact hinv s hs
    · exact hinv s hs
    · simp only [List.mem_append, List.mem_singleton] at hs
      rcases hs with hs | rfl
      · exact hinv s hs
      · exact ⟨ex, hex, rfl⟩

/-- Witness for C10 at a concrete protected deletion. -/
theorem delete_exam_protect_witness :
    delete_exam subStore 1 = (subStore, .error .ProtectedError) := by
  have h := delete_exam_protect subStore 1
  exact h.1 ⟨⟨1, 1, 1, 15, "a.pdf", 100⟩, by simp [subStore], rfl⟩

/-- C5 counterexample: contrary to the claim that neither uniqueness
invariant is backed by a store-level constraint, the Enrollment model
declares `unique_together = ('student', 'course')`, so the underlying create
rejects a duplicate (student, course) pair even without the view's
prior-existence check. -/
theorem store_constraint_counterexample :
    enrollmentRawCreate sampleStore 1 1 = none := rfl

/-- C5 amended: the at-most-one ExamSubmission per (student, exam) invariant
is not backed by a store-level constraint — the raw insert admits a duplicate
pair when the prior-existence check is skipped — while the at-most-one
Enrollment per (student, course) invariant is backed by the model's
`unique_together` constraint, whose raw create rejects a duplicate pair. -/
theorem uniqueness_backing_amended (st : Store) (sid cid eid : Nat)
    (now : Int) (fn : String) (fs : Nat)
    (hdup : isEnrolled st sid cid = true)
    (hsubdup : hasSubmitted st sid eid = true)
    (hfreshS : ∀ s ∈ st.submissions, s.submissionId ≠ st.nextSubmissionId) :
    enrollmentRawCreate st sid cid = none ∧
    ∃ s1 ∈ (submissionRawCreate st sid eid now fn fs).submissions,
      ∃ s2 ∈ (submissionRawCreate st sid eid now fn fs).submissions,
        s1 ≠ s2 ∧ s1.studentId = sid ∧ s1.examId = eid ∧
        s2.studentId = sid ∧ s2.examId = eid := by
  constructor
  · unfold enrollmentRawCreate
    rw [if_pos hdup]
  · obtain ⟨s1, hs1, h1, h2⟩ :
        ∃ s ∈ st.submissions, s.studentId = sid ∧ s.examId = eid := by
      simpa [hasSubmitted, List.any_eq_true] using hsubdup
    refine ⟨s1, ?_, ⟨st.nextSubmissionId, sid, eid, now, fn, fs⟩, ?_,
      ?_, h1, h2, rfl, rfl⟩
    · unfold submissionRawCreate
      simp [hs1]
    · unfold submissionRawCreate
      simp
    · intro hcontra
      exact hfreshS s1 hs1 (by rw [hcontra])

/-- Witness for the amended C5 at a concrete duplicate pair. -/
theorem uniqueness_backing_amended_witness :
    enrollmentRawCreate subStore 1 1 = none := by
  have h := uniqueness_backing_amended subStore 1 1 1 15 "a.pdf" 100 rfl rfl
    (by decide)
  exact h.1

/-- C2 counterexample: a submission attempt at time 5, before the exam's
start time 10 (Upcoming), is reported valid by the middleware timing check —
the middleware does not reject pre-start attempts, contrary to the claim
that both the view and the middleware reject them. -/
theorem middleware_early_counterexample :
    examUpcoming ⟨1, 1, 10, 20⟩ 5 = true ∧
    checkExamTiming sampleStore 1 1 5 = true := ⟨rfl, rfl⟩

/-- C2 amended: every submission attempt outside [start_time, end_time] is
rejected by the view-level submit operation (ExamNotActive when enrolled) and
no Submission record is created; the middleware timing check rejects attempts
after end_time but passes attempts before start_time, as it compares only
against end_time. -/
theorem submission_window_rejection (st : Store) (sid : Nat) (e : Exam)
    (fn : String) (fs : Nat) (now : Int)
    (hout : is_active e now = false)
    (hfind : st.exams.find? (fun x => x.examId == e.examId) = some e) :
    ((attempt_submit st sid e fn fs now).1 = st) ∧
    (∀ sub, (attempt_submit st sid e fn fs now).2 ≠ .ok sub) ∧
    (isEnrolled st sid e.courseId = true →
      (attempt_submit st sid e fn fs now).2 = .error .ExamNotActive) ∧
    (e.endTime < now → checkExamTiming st sid e.examId now = false) ∧
    (now < e.startTime → e.startTime ≤ e.endTime →
      hasSubmitted st sid e.examId = false →
      checkExamTiming st sid e.examId now = true) := by
  refine ⟨?_, ?_, ?_, ?_, ?_⟩
  · unfold attempt_submit
    split_ifs <;> first | rfl | simp_all
  · unfold attempt_submit
    split_ifs <;> simp_all
  · intro henr
    unfold attempt_submit
    split_ifs <;> simp_all
  · intro hlt
    unfold checkExamTiming
    rw [hfind]
    simp [hlt]
  · intro hlt hwf hns
    unfold checkExamTiming
    rw [hfind]
    have h1 : ¬(now > e.endTime) := by omega
    simp [h1, hns]

/-- Witness for the amended C2 at a concrete pre-start attempt. -/
theorem submission_window_rejection_witness :
    (attempt_submit sampleStore 1 ⟨1, 1, 10, 20⟩ "a.pdf" 100 5).1 =
      sampleStore := by
  have h := submission_window_rejection sampleStore 1 ⟨1, 1, 10, 20⟩
    "a.pdf" 100 5 rfl rfl
  exact h.1

end UniPaperManager
